import Mathlib

/-!
Verification development for the SoulForge digital-companion core
(TypeScript sources: `memory-system.ts`, `mood-engine.ts`,
`personality-system.ts`, `soul.ts`).

The TypeScript classes are shallowly embedded as pure Lean functions over
explicit state records.  JavaScript numbers are modelled as rationals
(every operation the core performs — addition, subtraction, multiplication
by decimal constants, `Math.min` / `Math.max` / `Math.round`, division by
powers of two and by list lengths — is exact on the rationals that arise).
JavaScript strings are modelled as `List Char`; `String.prototype.includes`
and `toLowerCase` are defined below.  `uuid` identifiers are modelled by a
monotone counter and `Date.now()` by an explicit `now : Nat` parameter
(milliseconds), which the callers of the embedded operations thread through.

The `MoodEngine`'s internal-monologue log (`thoughts`, `moodHistory`) is
driven by `Math.random` and wall-clock rate limiting and is observed by no
claim; the mood engine is therefore embedded by its `emotionalState` record
and the pure state transformers that act on it.  Every quantity any claim
talks about (memory records and their importance/weight, the short-term and
long-term lists, Big-Five traits, the energy/stress/confidence/socialBattery
scalars, moods, conversation contexts) is modelled in full.
-/

namespace Soulforge

/-- JavaScript strings as character lists. -/
abbrev Str := List Char

/-- Coerce a Lean string literal to the model's string type. -/
def S (s : String) : Str := s.data

/-- `String.prototype.toLowerCase` (per-character lowering). -/
def lowerStr (s : Str) : Str := s.map Char.toLower

/-- `String.prototype.includes`: `strIncludes s sub` is true iff `sub`
occurs contiguously in `s` (the empty string occurs in every string). -/
def strIncludes : Str → Str → Bool
  | [], sub => sub.isEmpty
  | c :: t, sub => sub.isPrefixOf (c :: t) || strIncludes t sub

/-- `Math.round` on JavaScript numbers: half-way cases round toward `+∞`. -/
def jsRound (q : ℚ) : ℤ := ⌊q + 1 / 2⌋

/-- `Math.min` on (non-NaN) JavaScript numbers.  Defined by an explicit
comparison so that the kernel can evaluate it on literals. -/
def jsMin (a b : ℚ) : ℚ := if a ≤ b then a else b

/-- `Math.max` on (non-NaN) JavaScript numbers. -/
def jsMax (a b : ℚ) : ℚ := if a ≤ b then b else a

lemma jsMin_eq_min (a b : ℚ) : jsMin a b = min a b := (min_def a b).symm

lemma jsMax_eq_max (a b : ℚ) : jsMax a b = max a b := (max_def a b).symm

/-- `Math.max(0, Math.min(100, x))`, the clamp used by the personality system. -/
def clamp100 (x : ℚ) : ℚ := jsMax 0 (jsMin 100 x)

/-! ## Mood engine (`mood-engine.ts`) -/

/-- The fixed mood enumeration (`MoodState` in `types.ts`). -/
inductive MoodState
  | joyful | content | neutral | melancholic | anxious
  | excited | calm | frustrated | curious | contemplative
deriving DecidableEq, Repr

/-- `EmotionalState` from `types.ts`: the mood plus the four scalars.
`socialBattery` is the spec's "socialCapacity". -/
structure EmotionalState where
  mood : MoodState
  energy : ℚ
  stress : ℚ
  confidence : ℚ
  socialBattery : ℚ
deriving DecidableEq, Repr

/-- Stimulus polarity for `MoodEngine.updateMood`. -/
inductive StimulusType
  | positive | negative | neutral
deriving DecidableEq, Repr

/-- `MoodEngine.moveToward`: move `current` toward `target` by at most `step`. -/
def moveToward (current target step : ℚ) : ℚ :=
  if current < target then jsMin target (current + step)
  else if target < current then jsMax target (current - step)
  else current

/-- `MoodEngine.calculateMoodFromState`: classify the mood from the four
scalars, in the source's exact branch order. -/
def calculateMoodFromState (e : EmotionalState) : MoodState :=
  if 70 < e.stress then
    if 60 < e.energy then .anxious else .frustrated
  else if e.energy < 30 then
    if 40 < e.stress then .melancholic else .contemplative
  else if 80 < e.energy ∧ e.stress < 30 then
    if 70 < e.confidence then .joyful else .excited
  else if 70 < e.confidence ∧ e.stress < 40 then
    if 60 < e.energy then .content else .calm
  else if 70 < e.socialBattery ∧ 50 < e.confidence ∧ e.confidence < 80 then
    .curious
  else .neutral

/-- `MoodEngine.updateMood`: adjust the scalars according to the stimulus
(`0.3/0.2/0.25` for positive, `0.2/0.4/0.15` for negative, one
`moveToward`-step toward the 70/20/60 baseline for neutral), then
reclassify the mood from the adjusted state. -/
def updateMood (st : EmotionalState) (ty : StimulusType) (intensity : ℚ) :
    EmotionalState :=
  let st1 :=
    match ty with
    | .positive =>
        { st with
          energy := jsMin 100 (st.energy + intensity * (3 / 10))
          stress := jsMax 0 (st.stress - intensity * (1 / 5))
          confidence := jsMin 100 (st.confidence + intensity * (1 / 4)) }
    | .negative =>
        { st with
          energy := jsMax 0 (st.energy - intensity * (1 / 5))
          stress := jsMin 100 (st.stress + intensity * (2 / 5))
          confidence := jsMax 0 (st.confidence - intensity * (3 / 20)) }
    | .neutral =>
        { st with
          energy := moveToward st.energy 70 5
          stress := moveToward st.stress 20 5
          confidence := moveToward st.confidence 60 3 }
  { st1 with mood := calculateMoodFromState st1 }

/-- The mood engine's initial emotional state (constructor of `MoodEngine`). -/
def initialEmotionalState (initialMood : MoodState) : EmotionalState :=
  ⟨initialMood, 70, 20, 60, 80⟩

/-- Modelled from the spec wording of the six-rule priority table
(§4.2 of the spec), written independently of the source for refinement:
 1. stress>70: energy>60 ? anxious : frustrated;
 2. energy<30: stress>40 ? melancholic : contemplative;
 3. energy>80 and stress<30: confidence>70 ? joyful : excited;
 4. confidence>70 and stress<40: energy>60 ? content : calm;
 5. socialCapacity>70 and 50<confidence<80: curious;
 6. otherwise neutral. -/
def specMoodTable (energy stress confidence socialCapacity : ℚ) : MoodState :=
  if 70 < stress then (if 60 < energy then .anxious else .frustrated)
  else if energy < 30 then (if 40 < stress then .melancholic else .contemplative)
  else if 80 < energy ∧ stress < 30 then (if 70 < confidence then .joyful else .excited)
  else if 70 < confidence ∧ stress < 40 then (if 60 < energy then .content else .calm)
  else if 70 < socialCapacity ∧ 50 < confidence ∧ confidence < 80 then .curious
  else .neutral

/-! ## Memory system (`memory-system.ts`) -/

/-- Memory categories (`Memory['type']` in `types.ts`). -/
inductive MemType
  | episodic | semantic | procedural | emotional
deriving DecidableEq, Repr

/-- `Memory` from `types.ts`.  `id` models the uuid, `timestamp` the
creation `Date` in milliseconds. -/
structure Memory where
  id : Nat
  content : Str
  type : MemType
  importance : ℚ
  emotional_weight : ℚ
  timestamp : Nat
  tags : List Str
  associations : List Nat
deriving DecidableEq, Repr

/-- `Map.prototype.set` on an insertion-ordered association list (the
model of a JavaScript `Map`): replace in place when the key is present
(JavaScript maps keep the original insertion position), append otherwise. -/
def jsMapSet {κ ν : Type} [DecidableEq κ] (m : List (κ × ν)) (k : κ) (v : ν) :
    List (κ × ν) :=
  if m.any (fun p => p.1 = k) then
    m.map (fun p => if p.1 = k then (k, v) else p)
  else m ++ [(k, v)]

/-- `Map.prototype.delete`. -/
def jsMapDelete {κ ν : Type} [DecidableEq κ] (m : List (κ × ν)) (k : κ) :
    List (κ × ν) :=
  m.filter (fun p => p.1 ≠ k)

/-- Insertion-ordered association list modelling the JavaScript
`Map<string, Memory>` primary index. -/
abbrev MemMap := List (Nat × Memory)

/-- `Array.from(map.values())` (insertion order). -/
def mapValues (m : MemMap) : List Memory := m.map Prod.snd

/-- The `MemorySystem` state: primary index, short-term and long-term
lists, the two capacities, and the uuid counter. -/
structure MemorySystem where
  memories : MemMap
  shortTermMemory : List Memory
  longTermMemory : List Memory
  maxShortTermSize : Nat
  maxLongTermSize : Nat
  nextId : Nat
deriving DecidableEq, Repr

/-- `new MemorySystem(shortTermCapacity, longTermCapacity)`. -/
def mkMemorySystem (shortTermCapacity longTermCapacity : Nat) : MemorySystem :=
  ⟨[], [], [], shortTermCapacity, longTermCapacity, 0⟩

/-- First half of `MemorySystem.consolidateMemories`: when the short-term
list exceeds its capacity, splice off the tail; each spliced item with
importance ≥ 60 is unshifted onto the long-term list, the rest are deleted
from the primary index. -/
def consolidateShortStep (s : MemorySystem) : MemorySystem :=
  if s.maxShortTermSize < s.shortTermMemory.length then
    let toConsolidate := s.shortTermMemory.drop s.maxShortTermSize
    let s1 := { s with shortTermMemory := s.shortTermMemory.take s.maxShortTermSize }
    toConsolidate.foldl
      (fun st m =>
        if 60 ≤ m.importance then
          { st with longTermMemory := m :: st.longTermMemory }
        else
          { st with memories := jsMapDelete st.memories m.id })
      s1
  else s

/-- Second half of `MemorySystem.consolidateMemories`: when the long-term
list exceeds its capacity, splice off the tail and delete those records
from the primary index. -/
def consolidateLongStep (s : MemorySystem) : MemorySystem :=
  if s.maxLongTermSize < s.longTermMemory.length then
    let forgotten := s.longTermMemory.drop s.maxLongTermSize
    let s1 := { s with longTermMemory := s.longTermMemory.take s.maxLongTermSize }
    forgotten.foldl (fun st m => { st with memories := jsMapDelete st.memories m.id }) s1
  else s

/-- `MemorySystem.consolidateMemories`. -/
def consolidateMemories (s : MemorySystem) : MemorySystem :=
  consolidateLongStep (consolidateShortStep s)

/-- `MemorySystem.store`: build the record verbatim from the arguments
(no clamping appears in the source), insert it into the primary index,
unshift it onto the short-term list, then consolidate.  Returns the new
record together with the new state. -/
def MemorySystem.store (s : MemorySystem) (content : Str) (ty : MemType)
    (importance emotional_weight : ℚ) (tags : List Str) (now : Nat) :
    Memory × MemorySystem :=
  let memory : Memory :=
    ⟨s.nextId, content, ty, importance, emotional_weight, now, tags, []⟩
  let s1 :=
    { s with
      memories := jsMapSet s.memories memory.id memory
      shortTermMemory := memory :: s.shortTermMemory
      nextId := s.nextId + 1 }
  (memory, consolidateMemories s1)

/-- Milliseconds per day (`1000 * 60 * 60 * 24`). -/
def msPerDay : ℚ := 1000 * 60 * 60 * 24

/-- `MemorySystem.calculateRelevance`: 100 for a (case-folded) content
match, +50 per tag containing the query, +0.5 × importance, plus the
recency bonus `max(0, 20 − daysSince)`. -/
def calculateRelevance (m : Memory) (query : Str) (now : Nat) : ℚ :=
  let queryLower := lowerStr query
  let contentLower := lowerStr m.content
  let contentScore : ℚ := if strIncludes contentLower queryLower then 100 else 0
  let tagScore : ℚ :=
    50 * ((m.tags.filter (fun t => strIncludes (lowerStr t) queryLower)).length : ℚ)
  let daysSince : ℚ := ((now : ℚ) - (m.timestamp : ℚ)) / msPerDay
  contentScore + tagScore + m.importance * (1 / 2) + jsMax 0 (20 - daysSince)

/-- The descending-relevance comparison used by `recall`'s sort, on the
scored pairs the source builds (`b.relevance - a.relevance ≤ 0`). -/
def scoreGE (a b : Memory × ℚ) : Prop := b.2 ≤ a.2

instance : DecidableRel scoreGE := fun a b =>
  inferInstanceAs (Decidable (b.2 ≤ a.2))

instance : IsTotal (Memory × ℚ) scoreGE :=
  ⟨fun a b => le_total b.2 a.2⟩

instance : IsTrans (Memory × ℚ) scoreGE :=
  ⟨fun _ _ _ h1 h2 => le_trans h2 h1⟩

/-- `MemorySystem.recall`: filter by minimum importance, attach relevance
scores, drop non-positive scores, sort descending by score, truncate to
`limit`, and project the records back out. -/
def MemorySystem.recall (s : MemorySystem) (query : Str) (limit : Nat)
    (minImportance : ℚ) (now : Nat) : List Memory :=
  let allMemories := mapValues s.memories
  let scored :=
    (allMemories.filter (fun m => decide (minImportance ≤ m.importance))).map
      (fun m => (m, calculateRelevance m query now))
  let positive := scored.filter (fun p => decide ((0 : ℚ) < p.2))
  ((positive.insertionSort scoreGE).take limit).map Prod.fst

/-- The descending-timestamp comparison used by `getRecentMemories`. -/
def recentGE (a b : Memory) : Prop := b.timestamp ≤ a.timestamp

instance : DecidableRel recentGE := fun a b =>
  inferInstanceAs (Decidable (b.timestamp ≤ a.timestamp))

instance : IsTotal Memory recentGE :=
  ⟨fun a b => Nat.le_total b.timestamp a.timestamp⟩

instance : IsTrans Memory recentGE :=
  ⟨fun _ _ _ h1 h2 => Nat.le_trans h2 h1⟩

/-- `MemorySystem.getRecentMemories`: all records sorted by timestamp
descending, truncated to `count`. -/
def MemorySystem.getRecentMemories (s : MemorySystem) (count : Nat) : List Memory :=
  ((mapValues s.memories).insertionSort recentGE).take count

/-- The record returned by `MemorySystem.getStats`; the
`memoryTypes` record is modelled by its four counters. -/
structure MemoryStats where
  totalMemories : Nat
  shortTermCount : Nat
  longTermCount : Nat
  averageImportance : ℤ
  episodicCount : Nat
  semanticCount : Nat
  proceduralCount : Nat
  emotionalCount : Nat
deriving DecidableEq, Repr

/-- `MemorySystem.getStats`.  The source computes
`sum / length || 0`: on an empty list the division yields `NaN` and the
`|| 0` guard replaces it (and a literal 0 average) by 0, so the model
guards the empty case explicitly. -/
def MemorySystem.getStats (s : MemorySystem) : MemoryStats :=
  let allMemories := mapValues s.memories
  let avgImportance : ℚ :=
    if allMemories.length = 0 then 0
    else (allMemories.foldl (fun acc m => acc + m.importance) 0) / (allMemories.length : ℚ)
  { totalMemories := allMemories.length
    shortTermCount := s.shortTermMemory.length
    longTermCount := s.longTermMemory.length
    averageImportance := jsRound avgImportance
    episodicCount := (allMemories.filter (fun m => decide (m.type = .episodic))).length
    semanticCount := (allMemories.filter (fun m => decide (m.type = .semantic))).length
    proceduralCount := (allMemories.filter (fun m => decide (m.type = .procedural))).length
    emotionalCount := (allMemories.filter (fun m => decide (m.type = .emotional))).length }

/-- `MemorySystem.export`. -/
def MemorySystem.exportMems (s : MemorySystem) : List Memory :=
  mapValues s.memories

/-- `MemorySystem.import`: re-insert every record into the primary index
and push it onto the long-term (importance ≥ 60) or short-term list, then
re-run consolidation. -/
def MemorySystem.importMems (s : MemorySystem) (ms : List Memory) : MemorySystem :=
  let s1 :=
    ms.foldl
      (fun st m =>
        let st1 := { st with memories := jsMapSet st.memories m.id m }
        if 60 ≤ m.importance then
          { st1 with longTermMemory := st1.longTermMemory ++ [m] }
        else
          { st1 with shortTermMemory := st1.shortTermMemory ++ [m] })
      s
  consolidateMemories s1

/-! ## Personality system (`personality-system.ts`) -/

/-- `BigFiveTraits` from `types.ts`. -/
structure BigFiveTraits where
  openness : ℚ
  conscientiousness : ℚ
  extraversion : ℚ
  agreeableness : ℚ
  neuroticism : ℚ
deriving DecidableEq, Repr

/-- `PersonalitySystem.getDefaultBigFive`. -/
def defaultBigFive : BigFiveTraits := ⟨60, 65, 45, 70, 35⟩

/-- Names of the five traits, for the `Object.entries` iteration order. -/
inductive TraitName
  | openness | conscientiousness | extraversion | agreeableness | neuroticism
deriving DecidableEq, Repr

def BigFiveTraits.get (b : BigFiveTraits) : TraitName → ℚ
  | .openness => b.openness
  | .conscientiousness => b.conscientiousness
  | .extraversion => b.extraversion
  | .agreeableness => b.agreeableness
  | .neuroticism => b.neuroticism

def BigFiveTraits.set (b : BigFiveTraits) : TraitName → ℚ → BigFiveTraits
  | .openness, v => { b with openness := v }
  | .conscientiousness, v => { b with conscientiousness := v }
  | .extraversion, v => { b with extraversion := v }
  | .agreeableness, v => { b with agreeableness := v }
  | .neuroticism, v => { b with neuroticism := v }

/-- `Partial<BigFiveTraits>`: the optional per-trait values handed to
`updateBigFive`. -/
structure TraitChanges where
  openness : Option ℚ
  conscientiousness : Option ℚ
  extraversion : Option ℚ
  agreeableness : Option ℚ
  neuroticism : Option ℚ
deriving DecidableEq, Repr

/-- The all-`none` change set (the empty object `{}`). -/
def TraitChanges.empty : TraitChanges := ⟨none, none, none, none, none⟩

/-- `Object.entries(changes)`: the provided traits in declaration order. -/
def TraitChanges.entries (c : TraitChanges) : List (TraitName × ℚ) :=
  (match c.openness with | some v => [(TraitName.openness, v)] | none => []) ++
  (match c.conscientiousness with | some v => [(TraitName.conscientiousness, v)] | none => []) ++
  (match c.extraversion with | some v => [(TraitName.extraversion, v)] | none => []) ++
  (match c.agreeableness with | some v => [(TraitName.agreeableness, v)] | none => []) ++
  (match c.neuroticism with | some v => [(TraitName.neuroticism, v)] | none => [])

/-- `PersonalitySystem.updateBigFive`: for each provided trait, move the
current value toward the provided value by `(value − current) ×
(adaptationRate / 100)` and clamp the result into `[0, 100]`. -/
def updateBigFive (b : BigFiveTraits) (adaptationRate : ℚ) (changes : TraitChanges) :
    BigFiveTraits :=
  changes.entries.foldl
    (fun acc tv =>
      let currentValue := acc.get tv.1
      let change := (tv.2 - currentValue) * (adaptationRate / 100)
      acc.set tv.1 (clamp100 (currentValue + change)))
    b

/-- `PersonalityConfig` from `types.ts` (all fields optional). -/
structure PersonalityConfig where
  bigFive : Option BigFiveTraits
  mbti : Option Str
  temperament : Option Str
  archetype : Option Str
deriving DecidableEq, Repr

/-- The `PersonalitySystem` state: the resolved configuration plus the
adaptation rate. -/
structure PersonalitySystem where
  bigFive : BigFiveTraits
  mbti : Str
  temperament : Str
  archetype : Str
  adaptationRate : ℚ
deriving DecidableEq, Repr

/-- `new PersonalitySystem(config, adaptationRate)`: missing fields fall
back to the defaults. -/
def mkPersonalitySystem (config : PersonalityConfig) (adaptationRate : ℚ) :
    PersonalitySystem :=
  { bigFive := config.bigFive.getD defaultBigFive
    mbti := config.mbti.getD (S "ISFJ")
    temperament := config.temperament.getD (S "phlegmatic")
    archetype := config.archetype.getD (S "The Helper")
    adaptationRate := adaptationRate }

/-- `PersonalitySystem.getConfig` (a copy with every field present). -/
def PersonalitySystem.getConfig (p : PersonalitySystem) : PersonalityConfig :=
  ⟨some p.bigFive, some p.mbti, some p.temperament, some p.archetype⟩

/-- The record returned by `PersonalitySystem.getResponseStyle`;
`verbosity`, `formality` and `tone` are the JavaScript string values. -/
structure ResponseStyle where
  tone : Str
  verbosity : Str
  formality : Str
  empathy : ℤ
  assertiveness : ℤ
deriving DecidableEq, Repr

/-- `PersonalitySystem.determineTone`. -/
def determineTone (mood : MoodState) (bigFive : BigFiveTraits) : Str :=
  let agreeablenessEffect := bigFive.agreeableness / 100
  let extraversionEffect := bigFive.extraversion / 100
  let neuroticismEffect := bigFive.neuroticism / 100
  match mood with
  | .joyful => if 3 / 5 < extraversionEffect then S "enthusiastic" else S "warm"
  | .content => S "pleasant"
  | .excited => S "energetic"
  | .anxious => if 3 / 5 < neuroticismEffect then S "worried" else S "cautious"
  | .frustrated => if 7 / 10 < agreeablenessEffect then S "strained" else S "direct"
  | .melancholic => S "thoughtful"
  | .contemplative => S "reflective"
  | .curious => S "inquisitive"
  | .calm => S "serene"
  | .neutral => if 3 / 5 < agreeablenessEffect then S "friendly" else S "neutral"

/-- `PersonalitySystem.getResponseStyle`. -/
def getResponseStyle (p : PersonalitySystem) (emotionalState : EmotionalState)
    (relationship : Str) : ResponseStyle :=
  let bigFive := p.bigFive
  let extraversionEffect := bigFive.extraversion / 100
  let agreeablenessEffect := bigFive.agreeableness / 100
  let conscientiousnessEffect := bigFive.conscientiousness / 100
  let neuroticismEffect := bigFive.neuroticism / 100
  let verbosity :=
    if 7 / 10 < extraversionEffect ∧ 60 < emotionalState.socialBattery then S "verbose"
    else if extraversionEffect < 3 / 10 ∨ emotionalState.socialBattery < 30 then S "concise"
    else S "moderate"
  let formality :=
    if 7 / 10 < conscientiousnessEffect then S "formal"
    else if 3 / 5 < extraversionEffect ∧ 3 / 5 < agreeablenessEffect then S "casual"
    else S "neutral"
  let pair :=
    if relationship = S "friend" ∨ relationship = S "family" then
      (if verbosity = S "concise" then S "moderate" else verbosity, S "casual")
    else if relationship = S "professional" then (verbosity, S "formal")
    else (verbosity, formality)
  let empathy := jsRound (agreeablenessEffect * 100 * (1 - neuroticismEffect * (3 / 10)))
  let assertiveness :=
    jsRound ((extraversionEffect * emotionalState.confidence / 100) * 100 *
      (1 - agreeablenessEffect * (1 / 5)))
  { tone := determineTone emotionalState.mood bigFive
    verbosity := pair.1
    formality := pair.2
    empathy := empathy
    assertiveness := assertiveness }

/-- The record returned by `PersonalitySystem.getBehavioralTendencies`. -/
structure BehavioralTendencies where
  curiosityLevel : ℤ
  socialSeeking : ℤ
  emotionalExpression : ℤ
  planningOrientation : ℤ
  changeAdaptability : ℤ
deriving DecidableEq, Repr

/-- `PersonalitySystem.getBehavioralTendencies`. -/
def getBehavioralTendencies (bigFive : BigFiveTraits) : BehavioralTendencies :=
  { curiosityLevel := jsRound bigFive.openness
    socialSeeking := jsRound bigFive.extraversion
    emotionalExpression := jsRound ((100 - bigFive.neuroticism + bigFive.extraversion) / 2)
    planningOrientation := jsRound bigFive.conscientiousness
    changeAdaptability := jsRound ((bigFive.openness + (100 - bigFive.neuroticism)) / 2) }

/-! ## Orchestrator (`soul.ts`) -/

/-- `Identity` from `types.ts` (the optional biography fields play no role
in any claimed behaviour and are omitted). -/
structure Identity where
  name : Str
  role : Str
deriving DecidableEq, Repr

/-- One entry of a conversation context's bounded turn history. -/
structure HistoryEntry where
  speaker : Str
  message : Str
  timestamp : Nat
  emotionalResponse : Option StimulusType
deriving DecidableEq, Repr

/-- `ConversationContext` from `types.ts`. -/
structure ConversationContext where
  participantId : Str
  participantName : Str
  relationship : Str
  history : List HistoryEntry
deriving DecidableEq, Repr

/-- The `Map<string, ConversationContext>` keyed by participant id. -/
abbrev CtxMap := List (Str × ConversationContext)

/-- `Map.prototype.get` on the context map. -/
def ctxGet? (m : CtxMap) (k : Str) : Option ConversationContext :=
  (m.find? (fun p => p.1 = k)).map Prod.snd

/-- The `Soul` state.  The mood engine is represented by its emotional
state (see the module comment); `id` models the soul's uuid. -/
structure Soul where
  id : Nat
  identity : Identity
  memorySystem : MemorySystem
  emotionalState : EmotionalState
  personalitySystem : PersonalitySystem
  conversationContexts : CtxMap
  empathyLevel : ℚ
  learningRate : ℚ
deriving DecidableEq, Repr

/-- `SoulConfig` from `types.ts` (fields not needed by any claim —
`thoughtFrequency` — are omitted; every field is optional at the
constructor). -/
structure SoulConfig where
  identity : Option Identity
  personality : Option PersonalityConfig
  initialMood : Option MoodState
  memoryCapacity : Option Nat
  empathyLevel : Option ℚ
  learningRate : Option ℚ
deriving DecidableEq, Repr

/-- JavaScript `x || d` on an optional numeric configuration value:
`0` is falsy, so an explicit `0` also falls back to the default. -/
def jsOrQ (o : Option ℚ) (d : ℚ) : ℚ :=
  match o with
  | some v => if v = 0 then d else v
  | none => d

/-- JavaScript `x || d` on an optional natural-number configuration value. -/
def jsOrN (o : Option Nat) (d : Nat) : Nat :=
  match o with
  | some v => if v = 0 then d else v
  | none => d

/-- The identity memory's content: `` `I am ${name}, a ${role}.` ``. -/
def identityContent (identity : Identity) : Str :=
  S "I am " ++ identity.name ++ S ", a " ++ identity.role ++ S "."

/-- `new Soul(config)` at time `now`: resolve the configuration defaults,
then store the initial identity memory (importance 100, weight 0, tags
`identity`/`self`). -/
def mkSoul (config : Option SoulConfig) (now : Nat) : Soul :=
  let identity := (config.bind (·.identity)).getD ⟨S "Soul", S "Companion"⟩
  let memorySystem0 := mkMemorySystem 50 (jsOrN (config.bind (·.memoryCapacity)) 1000)
  let learningRate := jsOrQ (config.bind (·.learningRate)) 5
  let memorySystem :=
    (memorySystem0.store (identityContent identity) .semantic 100 0
      [S "identity", S "self"] now).2
  { id := 0
    identity := identity
    memorySystem := memorySystem
    emotionalState := initialEmotionalState ((config.bind (·.initialMood)).getD .neutral)
    personalitySystem :=
      mkPersonalitySystem ((config.bind (·.personality)).getD ⟨none, none, none, none⟩)
        learningRate
    conversationContexts := []
    empathyLevel := jsOrQ (config.bind (·.empathyLevel)) 70
    learningRate := learningRate }

/-- `Soul.withMood`: the fluent mood setter.  The source never reads its
`mood` argument; it feeds a neutral, zero-intensity stimulus to the mood
engine instead. -/
def Soul.withMood (s : Soul) (_mood : MoodState) : Soul :=
  { s with emotionalState := updateMood s.emotionalState .neutral 0 }

/-- The result of `Soul.analyzeEmotionalImpact`. -/
structure EmotionalImpact where
  type : StimulusType
  intensity : ℚ
  importance : ℚ
  emotionalWeight : ℚ
deriving DecidableEq, Repr

/-- The fixed positive lexicon of `Soul.analyzeEmotionalImpact`. -/
def positiveWords : List Str :=
  [S "happy", S "good", S "great", S "wonderful", S "amazing", S "love",
   S "like", S "fantastic"]

/-- The fixed negative lexicon of `Soul.analyzeEmotionalImpact`. -/
def negativeWords : List Str :=
  [S "sad", S "bad", S "terrible", S "awful", S "hate", S "dislike",
   S "horrible", S "angry"]

/-- Number of positive lexicon words occurring in the lowercased input. -/
def positiveScore (input : Str) : Nat :=
  (positiveWords.filter (fun w => strIncludes (lowerStr input) w)).length

/-- Number of negative lexicon words occurring in the lowercased input. -/
def negativeScore (input : Str) : Nat :=
  (negativeWords.filter (fun w => strIncludes (lowerStr input) w)).length

/-- `Soul.analyzeEmotionalImpact`.  (The source also counts question words
into a `questionScore` it never reads; that dead computation is omitted.) -/
def analyzeEmotionalImpact (input : Str) : EmotionalImpact :=
  let pScore := positiveScore input
  let nScore := negativeScore input
  let tyIntensity : StimulusType × ℚ :=
    if nScore < pScore then (.positive, jsMin 80 (30 + (pScore : ℚ) * 15))
    else if pScore < nScore then (.negative, jsMin 80 (30 + (nScore : ℚ) * 15))
    else (.neutral, 20)
  let importance : ℚ := 30 + jsMin 50 ((input.length : ℚ) / 2)
  let emotionalWeight : ℚ :=
    match tyIntensity.1 with
    | .positive => tyIntensity.2
    | .negative => -tyIntensity.2
    | .neutral => 0
  ⟨tyIntensity.1, tyIntensity.2, importance, emotionalWeight⟩

/-- `Soul.adaptPersonality`'s drift computation: majority-positive recent
memories yield `{extraversion: 2, neuroticism: -1}`, majority-negative
yield `{neuroticism: 1}`, otherwise the empty change set; the result is
handed to `updateBigFive`. -/
def adaptPersonalityChanges (memories : List Memory) : TraitChanges :=
  let positiveMemories := memories.filter (fun m => decide (30 < m.emotional_weight))
  let negativeMemories := memories.filter (fun m => decide (m.emotional_weight < -30))
  if negativeMemories.length < positiveMemories.length then
    { TraitChanges.empty with extraversion := some 2, neuroticism := some (-1) }
  else if positiveMemories.length < negativeMemories.length then
    { TraitChanges.empty with neuroticism := some 1 }
  else TraitChanges.empty

/-- `Soul.generateResponse`: the deterministic template decision tree. -/
def generateResponse (p : PersonalitySystem) (input : Str)
    (context : ConversationContext) (memories : List Memory)
    (style : ResponseStyle) (emotionalState : EmotionalState) : Str :=
  let personality := getBehavioralTendencies p.bigFive
  let mood := emotionalState.mood
  let t1 :=
    if strIncludes input (S "?") then
      if 70 < personality.curiosityLevel then
        S "That's a fascinating question. Let me think about it..."
      else S "I'll consider that question."
    else if mood = .joyful then S "That sounds wonderful!"
    else if mood = .contemplative then S "That gives me something to think about."
    else if mood = .curious then S "That's really interesting. Tell me more."
    else S "I understand what you're saying."
  let t2 :=
    match memories with
    | [] => t1
    | memoryContext :: _ =>
        if strIncludes memoryContext.content context.participantName then
          t1 ++ S " This reminds me of our previous conversations."
        else t1
  let t3 :=
    if 70 < p.bigFive.agreeableness then
      S "I really appreciate you sharing that. " ++ t2
    else t2
  if 80 < style.empathy then S "I can sense this is important to you. " ++ t3 else t3

/-- `Soul.getOrCreateContext`. -/
def getOrCreateContext (m : CtxMap) (participantId participantName : Str) :
    CtxMap × ConversationContext :=
  match ctxGet? m participantId with
  | some c => (m, c)
  | none =>
      let c : ConversationContext :=
        ⟨participantId, participantName, S "acquaintance", []⟩
      (jsMapSet m participantId c, c)

/-- `Soul.respond` at time `now`: the full interaction pipeline's effect
on the soul state (the spontaneous-thought generation touches only the
unmodelled thought log).  Returns the new state together with the response
text. -/
def Soul.respond (soul : Soul) (input : Str) (participantId participantName : Str)
    (now : Nat) : Soul × Str :=
  let mc := getOrCreateContext soul.conversationContexts participantId participantName
  let context := mc.2
  let emotionalImpact := analyzeEmotionalImpact input
  let emotionalState := updateMood soul.emotionalState emotionalImpact.type
    emotionalImpact.intensity
  let sm1 := soul.memorySystem.store
    (participantName ++ S " said: \"" ++ input ++ S "\"") .episodic
    emotionalImpact.importance emotionalImpact.emotionalWeight
    [S "conversation", lowerStr participantName, S "input"] now
  let relevantMemories := sm1.2.recall input 5 30 now
  let style := getResponseStyle soul.personalitySystem emotionalState
    context.relationship
  let response := generateResponse soul.personalitySystem input context
    relevantMemories style emotionalState
  let sm2 := sm1.2.store (S "I responded: \"" ++ response ++ S "\"") .episodic 40
    (emotionalImpact.emotionalWeight * (1 / 2))
    [S "conversation", lowerStr participantName, S "response"] now
  let history1 := context.history ++
    [⟨participantName, input, now, some emotionalImpact.type⟩,
     ⟨soul.identity.name, response, now, none⟩]
  let history2 := if 20 < history1.length then history1.drop (history1.length - 10)
    else history1
  let context1 := { context with history := history2 }
  ({ soul with
      memorySystem := sm2.2
      emotionalState := emotionalState
      conversationContexts := jsMapSet mc.1 participantId context1 }, response)

/-- The snapshot record produced by `Soul.export`. -/
structure SoulSnapshot where
  id : Nat
  identity : Identity
  personality : PersonalityConfig
  memories : List Memory
  conversationContexts : List ConversationContext
  empathyLevel : ℚ
  learningRate : ℚ
deriving DecidableEq, Repr

/-- `Soul.export`. -/
def Soul.exportSoul (s : Soul) : SoulSnapshot :=
  ⟨s.id, s.identity, s.personalitySystem.getConfig, s.memorySystem.exportMems,
   s.conversationContexts.map Prod.snd, s.empathyLevel, s.learningRate⟩

/-- `Soul.import`: restore the scalars, re-import the memories (which
re-runs consolidation), merge the contexts back in keyed by participant
id, and recreate the personality system from the snapshot's config. -/
def Soul.importSoul (s : Soul) (data : SoulSnapshot) : Soul :=
  { s with
    id := data.id
    identity := data.identity
    empathyLevel := data.empathyLevel
    learningRate := data.learningRate
    memorySystem := s.memorySystem.importMems data.memories
    conversationContexts :=
      data.conversationContexts.foldl (fun m c => jsMapSet m c.participantId c)
        s.conversationContexts
    personalitySystem := mkPersonalitySystem data.personality data.learningRate }

/-! ## Theorems -/

/-- **C2** (confirmed).  Mood classification is a pure, deterministic
function of the four scalars `(energy, stress, confidence, socialBattery)`
— the current mood (the only other component of the emotional state) does
not influence it — and it coincides with the spec's six-rule priority
table `specMoodTable` evaluated in that exact order.  In particular
`(energy=75, stress=80)` classifies as anxious, `(energy=20, stress=10)`
as contemplative, and `(energy=85, stress=10, confidence=75)` as joyful,
for every value of the remaining scalars. -/
theorem c2_mood_classification_table :
    (∀ e : EmotionalState,
      calculateMoodFromState e =
        specMoodTable e.energy e.stress e.confidence e.socialBattery)
    ∧ (∀ (m₁ m₂ : MoodState) (en st c b : ℚ),
        calculateMoodFromState ⟨m₁, en, st, c, b⟩ =
          calculateMoodFromState ⟨m₂, en, st, c, b⟩)
    ∧ (∀ (m : MoodState) (c b : ℚ),
        calculateMoodFromState ⟨m, 75, 80, c, b⟩ = .anxious)
    ∧ (∀ (m : MoodState) (c b : ℚ),
        calculateMoodFromState ⟨m, 20, 10, c, b⟩ = .contemplative)
    ∧ (∀ (m : MoodState) (b : ℚ),
        calculateMoodFromState ⟨m, 85, 10, 75, b⟩ = .joyful) := by
  refine ⟨fun e => rfl, fun m₁ m₂ en st c b => rfl, ?_, ?_, ?_⟩ <;>
    intros <;> simp only [calculateMoodFromState] <;> norm_num

/-- **C9** (confirmed).  The fluent builder `withMood` ignores its mood
argument: two `withMood` calls with different moods on equal souls leave
equal souls.  Each call applies the neutral zero-intensity stimulus path:
energy, stress and confidence each take one `moveToward` step toward their
baselines (70, 20, 60, with steps 5, 5, 3), the social battery is
untouched, and the mood is reclassified from the stepped scalars — the
requested mood is never assigned. -/
theorem c9_withMood_ignores_argument :
    (∀ (s : Soul) (m₁ m₂ : MoodState), s.withMood m₁ = s.withMood m₂)
    ∧ (∀ (s : Soul) (m : MoodState),
        s.withMood m =
          { s with
            emotionalState :=
              { mood := calculateMoodFromState
                  ⟨s.emotionalState.mood,
                   moveToward s.emotionalState.energy 70 5,
                   moveToward s.emotionalState.stress 20 5,
                   moveToward s.emotionalState.confidence 60 3,
                   s.emotionalState.socialBattery⟩
                energy := moveToward s.emotionalState.energy 70 5
                stress := moveToward s.emotionalState.stress 20 5
                confidence := moveToward s.emotionalState.confidence 60 3
                socialBattery := s.emotionalState.socialBattery } }) :=
  ⟨fun _ _ _ => rfl, fun _ _ => rfl⟩

/-- **C7** (confirmed).  `updateBigFive` is exponential-moving-average
adaptation: each provided trait moves from its current value by
`(value − current) × (adaptationRate / 100)` and is clamped into
`[0, 100]`; traits not provided are unchanged. -/
theorem c7_updateTraits_is_ema :
    ∀ (b : BigFiveTraits) (rate : ℚ) (ch : TraitChanges),
      updateBigFive b rate ch =
        { openness := ch.openness.elim b.openness
            (fun v => clamp100 (b.openness + (v - b.openness) * (rate / 100)))
          conscientiousness := ch.conscientiousness.elim b.conscientiousness
            (fun v => clamp100 (b.conscientiousness + (v - b.conscientiousness) * (rate / 100)))
          extraversion := ch.extraversion.elim b.extraversion
            (fun v => clamp100 (b.extraversion + (v - b.extraversion) * (rate / 100)))
          agreeableness := ch.agreeableness.elim b.agreeableness
            (fun v => clamp100 (b.agreeableness + (v - b.agreeableness) * (rate / 100)))
          neuroticism := ch.neuroticism.elim b.neuroticism
            (fun v => clamp100 (b.neuroticism + (v - b.neuroticism) * (rate / 100))) } := by
  intro b rate ch
  obtain ⟨o, c, e, a, n⟩ := ch
  cases o <;> cases c <;> cases e <;> cases a <;> cases n <;> rfl

/-- A recent memory with strongly positive emotional weight (> 30). -/
def posDriftMemory : Memory :=
  ⟨0, [], .episodic, 50, 50, 0, [], []⟩

/-- A recent memory with strongly negative emotional weight (< −30). -/
def negDriftMemory : Memory :=
  ⟨1, [], .episodic, 50, -50, 0, [], []⟩

/-- **C5** (code_bug).  `adaptPersonality` builds `{extraversion: 2,
neuroticism: -1}` (positive majority) or `{neuroticism: 1}` (negative
majority) — intended, per its own comments, as slight increases /
decreases — but `updateBigFive` treats the numbers as adaptation
*targets*: with the default traits (extraversion 45, neuroticism 35) and
adaptation rate 5, a positive-memory majority moves extraversion to
42.85 (a decrease, toward the target 2), and a negative-memory majority
moves neuroticism to 33.3 (a decrease, toward the target 1), contradicting
the claimed upward nudges. -/
theorem c5_drift_direction_reversed :
    (adaptPersonalityChanges [posDriftMemory] =
      { TraitChanges.empty with extraversion := some 2, neuroticism := some (-1) })
    ∧ (updateBigFive defaultBigFive 5
        (adaptPersonalityChanges [posDriftMemory])).extraversion = 857 / 20
    ∧ ((857 : ℚ) / 20 < defaultBigFive.extraversion)
    ∧ (adaptPersonalityChanges [negDriftMemory] =
      { TraitChanges.empty with neuroticism := some 1 })
    ∧ (updateBigFive defaultBigFive 5
        (adaptPersonalityChanges [negDriftMemory])).neuroticism = 333 / 10
    ∧ ((333 : ℚ) / 10 < defaultBigFive.neuroticism) := by
  refine ⟨rfl, ?_, ?_, rfl, ?_, ?_⟩ <;>
    norm_num [updateBigFive, adaptPersonalityChanges, TraitChanges.entries,
      TraitChanges.empty, posDriftMemory, negDriftMemory, defaultBigFive,
      BigFiveTraits.get, BigFiveTraits.set, clamp100, jsMin, jsMax, List.filter]

/-- **C6** (corrected statement).  The emotional-impact classifier counts
which positive and which negative lexicon words occur in the lowercased
input; polarity goes to the strict majority side (neutral when the counts
tie, including ties with matches present); intensity is
`min(80, 30 + 15 × matchCount)` with `matchCount` the majority side's
count when one side strictly wins, and 20 otherwise — in particular it
stays 20 on a tie even when lexicon matches exist; importance is
`30 + min(50, len(input) / 2)`; emotional weight is `+intensity`,
`−intensity`, or 0 according to the polarity. -/
theorem c6_emotional_impact_classifier :
    ∀ input : Str,
      (analyzeEmotionalImpact input).type =
        (if negativeScore input < positiveScore input then StimulusType.positive
         else if positiveScore input < negativeScore input then StimulusType.negative
         else StimulusType.neutral)
      ∧ (analyzeEmotionalImpact input).intensity =
        (if negativeScore input < positiveScore input then
           min 80 (30 + (positiveScore input : ℚ) * 15)
         else if positiveScore input < negativeScore input then
           min 80 (30 + (negativeScore input : ℚ) * 15)
         else 20)
      ∧ (analyzeEmotionalImpact input).importance =
          30 + min 50 ((input.length : ℚ) / 2)
      ∧ (analyzeEmotionalImpact input).emotionalWeight =
        (if negativeScore input < positiveScore input then
           (analyzeEmotionalImpact input).intensity
         else if positiveScore input < negativeScore input then
           -(analyzeEmotionalImpact input).intensity
         else 0) := by
  intro input
  simp only [analyzeEmotionalImpact, jsMin_eq_min]
  split_ifs <;> simp_all

/-- **C6 counterexample.**  On the input `"happy sad"` one positive and
one negative lexicon word match, yet the classifier's intensity is the
no-match default 20, not `min(80, 30 + 15 × matchCount)` for any positive
match count (which would be at least 45): the claim's "intensity =
min(80, 30+15×matchCount) when there is any lexicon match" fails on ties. -/
theorem c6_tie_intensity_counterexample :
    positiveScore (S "happy sad") = 1
    ∧ negativeScore (S "happy sad") = 1
    ∧ (analyzeEmotionalImpact (S "happy sad")).intensity = 20
    ∧ min (80 : ℚ) (30 + 15 * 1) = 45
    ∧ min (80 : ℚ) (30 + 15 * 2) = 60
    ∧ (20 : ℚ) ≠ 45 ∧ (20 : ℚ) ≠ 60 := by
  refine ⟨by decide, by decide, by decide, by norm_num, by norm_num, by norm_num, by norm_num⟩

/-- **C10** (confirmed).  `getStats` is total and never divides by zero:
on an empty memory system every counter and the average importance are 0
(the `sum / length || 0` guard makes the empty average 0 rather than NaN),
the reported total always equals the primary index's size, and whenever
the index is empty the average importance is 0. -/
theorem c10_getStats_total :
    (∀ c l : Nat, (mkMemorySystem c l).getStats = ⟨0, 0, 0, 0, 0, 0, 0, 0⟩)
    ∧ (∀ s : MemorySystem, s.getStats.totalMemories = s.memories.length)
    ∧ (∀ s : MemorySystem, s.memories = [] → s.getStats.averageImportance = 0) := by
  refine ⟨fun c l => ?_, fun s => ?_, fun s h => ?_⟩
  · norm_num [MemorySystem.getStats, mkMemorySystem, mapValues, jsRound]
  · simp [MemorySystem.getStats, mapValues]
  · norm_num [MemorySystem.getStats, mapValues, h, jsRound]

/-- Witness for C10's guarded-average clause at the empty system. -/
theorem c10_getStats_witness :
    (mkMemorySystem 50 1000).memories = []
    ∧ (mkMemorySystem 50 1000).getStats.averageImportance = 0 :=
  ⟨rfl, c10_getStats_total.2.2 (mkMemorySystem 50 1000) rfl⟩

/-! ## C1: the clamping invariant over operation sequences -/

/-- A stored record's documented ranges: importance in `[0, 100]`,
emotional weight in `[-100, 100]`. -/
def memInRange (m : Memory) : Prop :=
  0 ≤ m.importance ∧ m.importance ≤ 100 ∧
    -100 ≤ m.emotional_weight ∧ m.emotional_weight ≤ 100

instance : DecidablePred memInRange := fun m => by
  unfold memInRange; infer_instance

/-- Every Big-Five trait in `[0, 100]`. -/
def traitsInRange (b : BigFiveTraits) : Prop :=
  0 ≤ b.openness ∧ b.openness ≤ 100 ∧
    0 ≤ b.conscientiousness ∧ b.conscientiousness ≤ 100 ∧
    0 ≤ b.extraversion ∧ b.extraversion ≤ 100 ∧
    0 ≤ b.agreeableness ∧ b.agreeableness ≤ 100 ∧
    0 ≤ b.neuroticism ∧ b.neuroticism ≤ 100

instance : DecidablePred traitsInRange := fun b => by
  unfold traitsInRange; infer_instance

/-- Every emotional-state scalar in `[0, 100]`. -/
def emoInRange (e : EmotionalState) : Prop :=
  0 ≤ e.energy ∧ e.energy ≤ 100 ∧
    0 ≤ e.stress ∧ e.stress ≤ 100 ∧
    0 ≤ e.confidence ∧ e.confidence ≤ 100 ∧
    0 ≤ e.socialBattery ∧ e.socialBattery ≤ 100

instance : DecidablePred emoInRange := fun e => by
  unfold emoInRange; infer_instance

/-- The combined state the C1 invariant ranges over: a memory system, a
trait vector (with its adaptation rate), and an emotional state. -/
structure SysState where
  mem : MemorySystem
  traits : BigFiveTraits
  emo : EmotionalState
  adaptationRate : ℚ
deriving DecidableEq

/-- The operations C1 quantifies over. -/
inductive SysOp where
  | store (content : Str) (ty : MemType) (importance weight : ℚ)
      (tags : List Str) (now : Nat)
  | updateTraits (changes : TraitChanges)
  | moodStim (ty : StimulusType) (intensity : ℚ)
deriving DecidableEq

/-- Apply one operation to the combined state. -/
def sysStep (s : SysState) : SysOp → SysState
  | .store c ty imp wt tags now =>
      { s with mem := (s.mem.store c ty imp wt tags now).2 }
  | .updateTraits ch =>
      { s with traits := updateBigFive s.traits s.adaptationRate ch }
  | .moodStim ty i => { s with emo := updateMood s.emo ty i }

/-- Apply a sequence of operations. -/
def sysRun (s : SysState) (ops : List SysOp) : SysState :=
  ops.foldl sysStep s

/-- In-range arguments: a documented-range importance/weight for `store`
and a documented-range (0–100) intensity for a mood stimulus; trait
updates accept anything (the clamp handles it). -/
def SysOp.valid : SysOp → Prop
  | .store _ _ imp wt _ _ => 0 ≤ imp ∧ imp ≤ 100 ∧ -100 ≤ wt ∧ wt ≤ 100
  | .updateTraits _ => True
  | .moodStim _ i => 0 ≤ i ∧ i ≤ 100

instance : DecidablePred SysOp.valid := fun op => by
  cases op <;> simp only [SysOp.valid] <;> infer_instance

/-- The C1 invariant: every indexed record in its documented range, every
trait in `[0, 100]`, every emotional scalar in `[0, 100]`. -/
def sysInv (s : SysState) : Prop :=
  (∀ p ∈ s.mem.memories, memInRange p.2) ∧
    traitsInRange s.traits ∧ emoInRange s.emo

instance (s : SysState) : Decidable (sysInv s) := by
  unfold sysInv; infer_instance

lemma clamp100_nonneg (x : ℚ) : 0 ≤ clamp100 x := le_max_left 0 _

lemma clamp100_le (x : ℚ) : clamp100 x ≤ 100 :=
  max_le (by norm_num) (min_le_left _ _)

lemma moveToward_bounds {c t : ℚ} (s : ℚ) (hc0 : 0 ≤ c) (hc1 : c ≤ 100)
    (ht0 : 0 ≤ t) (ht1 : t ≤ 100) (hs : 0 ≤ s) :
    0 ≤ moveToward c t s ∧ moveToward c t s ≤ 100 := by
  unfold moveToward
  split_ifs with h1 h2
  · exact ⟨le_min ht0 (by linarith), le_trans (min_le_left _ _) ht1⟩
  · exact ⟨le_trans ht0 (le_max_left _ _), max_le ht1 (by linarith)⟩
  · exact ⟨hc0, hc1⟩

lemma updateMood_in_range {e : EmotionalState} {i : ℚ} (ty : StimulusType)
    (he : emoInRange e) (h0 : 0 ≤ i) (_h1 : i ≤ 100) :
    emoInRange (updateMood e ty i) := by
  obtain ⟨e0, e1, s0, s1, c0, c1, b0, b1⟩ := he
  cases ty
  · have hi3 : (0 : ℚ) ≤ i * (3 / 10) := mul_nonneg h0 (by norm_num)
    have hi5 : (0 : ℚ) ≤ i * (1 / 5) := mul_nonneg h0 (by norm_num)
    have hi4 : (0 : ℚ) ≤ i * (1 / 4) := mul_nonneg h0 (by norm_num)
    exact ⟨le_min (by norm_num) (by linarith), min_le_left _ _,
      le_max_left _ _, max_le (by norm_num) (by linarith),
      le_min (by norm_num) (by linarith), min_le_left _ _, b0, b1⟩
  · have hi5 : (0 : ℚ) ≤ i * (1 / 5) := mul_nonneg h0 (by norm_num)
    have hi25 : (0 : ℚ) ≤ i * (2 / 5) := mul_nonneg h0 (by norm_num)
    have hi15 : (0 : ℚ) ≤ i * (3 / 20) := mul_nonneg h0 (by norm_num)
    exact ⟨le_max_left _ _, max_le (by norm_num) (by linarith),
      le_min (by norm_num) (by linarith), min_le_left _ _,
      le_max_left _ _, max_le (by norm_num) (by linarith), b0, b1⟩
  · obtain ⟨me0, me1⟩ := moveToward_bounds (c := e.energy) (t := 70) 5
      e0 e1 (by norm_num) (by norm_num) (by norm_num)
    obtain ⟨ms0, ms1⟩ := moveToward_bounds (c := e.stress) (t := 20) 5
      s0 s1 (by norm_num) (by norm_num) (by norm_num)
    obtain ⟨mc0, mc1⟩ := moveToward_bounds (c := e.confidence) (t := 60) 3
      c0 c1 (by norm_num) (by norm_num) (by norm_num)
    exact ⟨me0, me1, ms0, ms1, mc0, mc1, b0, b1⟩

lemma traitsInRange_set {b : BigFiveTraits} {v : ℚ} (t : TraitName)
    (hb : traitsInRange b) (h0 : 0 ≤ v) (h1 : v ≤ 100) :
    traitsInRange (b.set t v) := by
  cases t <;> simp_all [BigFiveTraits.set, traitsInRange]

lemma foldTraits_in_range (l : List (TraitName × ℚ)) (rate : ℚ) :
    ∀ b : BigFiveTraits, traitsInRange b →
      traitsInRange
        (l.foldl
          (fun acc tv =>
            let currentValue := acc.get tv.1
            let change := (tv.2 - currentValue) * (rate / 100)
            acc.set tv.1 (clamp100 (currentValue + change)))
          b) := by
  induction l with
  | nil => exact fun b hb => hb
  | cons tv rest ih =>
      intro b hb
      exact ih _ (traitsInRange_set tv.1 hb (clamp100_nonneg _) (clamp100_le _))

lemma updateBigFive_in_range {b : BigFiveTraits} (rate : ℚ) (ch : TraitChanges)
    (hb : traitsInRange b) : traitsInRange (updateBigFive b rate ch) :=
  foldTraits_in_range ch.entries rate b hb

lemma mem_of_jsMapSet {κ ν : Type} [DecidableEq κ] {m : List (κ × ν)}
    {k : κ} {v : ν} {q : κ × ν} (hq : q ∈ jsMapSet m k v) :
    q ∈ m ∨ q = (k, v) := by
  unfold jsMapSet at hq
  split_ifs at hq
  · rcases List.mem_map.1 hq with ⟨p, hp, he⟩
    by_cases hpk : p.1 = k
    · right; simp only [if_pos hpk] at he; exact he.symm
    · left; simp only [if_neg hpk] at he; exact he ▸ hp
  · rcases List.mem_append.1 hq with h | h
    · exact Or.inl h
    · exact Or.inr (List.mem_singleton.1 h)

lemma mem_of_jsMapDelete {κ ν : Type} [DecidableEq κ] {m : List (κ × ν)}
    {k : κ} {q : κ × ν} (hq : q ∈ jsMapDelete m k) : q ∈ m :=
  (List.mem_filter.1 hq).1

lemma consolidateShort_fold_mem (l : List Memory) :
    ∀ (st : MemorySystem) (q : Nat × Memory),
      q ∈ (l.foldl
        (fun st m =>
          if 60 ≤ m.importance then
            { st with longTermMemory := m :: st.longTermMemory }
          else
            { st with memories := jsMapDelete st.memories m.id })
        st).memories →
      q ∈ st.memories := by
  induction l with
  | nil => exact fun st q h => h
  | cons m rest ih =>
      intro st q h
      have h2 := ih _ q h
      by_cases h60 : 60 ≤ m.importance
      · simpa [h60] using h2
      · exact mem_of_jsMapDelete (by simpa [h60] using h2)

lemma consolidateLong_fold_mem (l : List Memory) :
    ∀ (st : MemorySystem) (q : Nat × Memory),
      q ∈ (l.foldl (fun st m => { st with memories := jsMapDelete st.memories m.id })
        st).memories →
      q ∈ st.memories := by
  induction l with
  | nil => exact fun st q h => h
  | cons m rest ih =>
      intro st q h
      exact mem_of_jsMapDelete (ih _ q h)

lemma consolidateShort_mem_outer {s : MemorySystem} {q : Nat × Memory}
    (hq : q ∈ (consolidateShortStep s).memories) : q ∈ s.memories := by
  simp only [consolidateShortStep] at hq
  split_ifs at hq
  · exact consolidateShort_fold_mem _
      { s with shortTermMemory := List.take s.maxShortTermSize s.shortTermMemory } _ hq
  · exact hq

lemma consolidate_mem {s : MemorySystem} {q : Nat × Memory}
    (hq : q ∈ (consolidateMemories s).memories) : q ∈ s.memories := by
  simp only [consolidateMemories, consolidateLongStep] at hq
  split_ifs at hq
  · exact consolidateShort_mem_outer (consolidateLong_fold_mem _
      { consolidateShortStep s with
        longTermMemory := List.take (consolidateShortStep s).maxLongTermSize
          (consolidateShortStep s).longTermMemory } _ hq)
  · exact consolidateShort_mem_outer hq

lemma store_mem {s : MemorySystem} {c : Str} {ty : MemType} {imp wt : ℚ}
    {tags : List Str} {now : Nat} {q : Nat × Memory}
    (hq : q ∈ ((s.store c ty imp wt tags now).2).memories) :
    q ∈ s.memories ∨ q = (s.nextId, ⟨s.nextId, c, ty, imp, wt, now, tags, []⟩) := by
  simp only [MemorySystem.store] at hq
  exact mem_of_jsMapSet (consolidate_mem hq)

lemma sysStep_inv {s : SysState} {op : SysOp} (hs : sysInv s) (hv : op.valid) :
    sysInv (sysStep s op) := by
  obtain ⟨hm, ht, he⟩ := hs
  cases op with
  | store c ty imp wt tags now =>
      refine ⟨fun q hq => ?_, ht, he⟩
      rcases store_mem hq with h | h
      · exact hm q h
      · obtain ⟨h1, h2, h3, h4⟩ := hv
        subst h
        exact ⟨h1, h2, h3, h4⟩
  | updateTraits ch => exact ⟨hm, updateBigFive_in_range _ ch ht, he⟩
  | moodStim ty i => exact ⟨hm, ht, updateMood_in_range ty he hv.1 hv.2⟩

/-- **C1 (amended).**  For every sequence of `store` / `updateTraits`
(`updateBigFive`) / `updateMood` calls whose *arguments* are in their
documented ranges (store importance in `[0, 100]` and weight in
`[-100, 100]`; stimulus intensity in `[0, 100]`), starting from any state
satisfying the invariant, every indexed record's importance stays in
`[0, 100]` and its weight in `[-100, 100]`, every Big-Five trait stays in
`[0, 100]`, and every emotional scalar (energy, stress, confidence,
socialBattery) stays in `[0, 100]`.  The original claim's stronger
assertion — that `store` clamps an out-of-range argument on write — is
false (see the counterexample): `store` writes its arguments verbatim, so
the record invariant holds only for in-range arguments. -/
theorem c1_clamping_invariant_amended (init : SysState) (ops : List SysOp)
    (h0 : sysInv init) (hv : ∀ op ∈ ops, op.valid) :
    sysInv (sysRun init ops) := by
  induction ops generalizing init with
  | nil => exact h0
  | cons op rest ih =>
      exact ih (sysStep init op) (sysStep_inv h0 (hv op (List.mem_cons_self op rest)))
        (fun o ho => hv o (List.mem_cons_of_mem op ho))

/-- **C1 counterexample.**  `store` does not clamp: storing with
importance 150 and weight 200 puts a record with exactly those
out-of-range values into the primary index. -/
theorem c1_store_does_not_clamp :
    (((mkMemorySystem 50 1000).store [] .episodic 150 200 [] 0).2).memories =
      [(0, ⟨0, [], .episodic, 150, 200, 0, [], []⟩)]
    ∧ ¬ memInRange ⟨0, [], .episodic, 150, 200, 0, [], []⟩ := by
  exact ⟨by decide, by decide⟩

/-- A concrete starting state for the C1 witness: a fresh default memory
system, the default traits, the initial emotional state, adaptation rate 5. -/
def c1InitState : SysState :=
  ⟨mkMemorySystem 50 1000, defaultBigFive, initialEmotionalState .neutral, 5⟩

/-- A concrete in-range operation sequence for the C1 witness. -/
def c1WitnessOps : List SysOp :=
  [.store (S "hello") .episodic 50 10 [] 0,
   .moodStim .positive 30,
   .updateTraits ⟨some 80, none, none, none, none⟩,
   .moodStim .neutral 0,
   .store (S "again") .emotional 100 (-100) [S "tag"] 5]

/-- Witness for C1 (amended): the invariant holds after running a concrete
in-range operation sequence from the default initial state. -/
theorem c1_clamping_invariant_witness :
    sysInv c1InitState ∧ (∀ op ∈ c1WitnessOps, op.valid) ∧
      sysInv (sysRun c1InitState c1WitnessOps) :=
  ⟨by decide, by decide,
   c1_clamping_invariant_amended c1InitState c1WitnessOps (by decide) (by decide)⟩

/-! ## C3: consolidation after storing `capacity + 1` records -/

/-- One `store` call's arguments. -/
structure StoreArgs where
  content : Str
  ty : MemType
  importance : ℚ
  weight : ℚ
  tags : List Str
  now : Nat
deriving DecidableEq

/-- Run a sequence of `store` calls. -/
def storeMany (s : MemorySystem) : List StoreArgs → MemorySystem
  | [] => s
  | a :: rest =>
      storeMany ((s.store a.content a.ty a.importance a.weight a.tags a.now).2) rest

/-- The record `store` builds from arguments `a` when the uuid counter is
at `id`. -/
def memOfArg (a : StoreArgs) (id : Nat) : Memory :=
  ⟨id, a.content, a.ty, a.importance, a.weight, a.now, a.tags, []⟩

/-- The records a sequence of stores builds, with ids from `i` upward. -/
def memsOf : List StoreArgs → Nat → List Memory
  | [], _ => []
  | a :: rest, i => memOfArg a i :: memsOf rest (i + 1)

lemma memsOf_length (args : List StoreArgs) : ∀ i, (memsOf args i).length = args.length := by
  induction args with
  | nil => intro i; rfl
  | cons a rest ih => intro i; simp [memsOf, ih]

lemma memsOf_id_ge (args : List StoreArgs) : ∀ i, ∀ m ∈ memsOf args i, i ≤ m.id := by
  induction args with
  | nil => intro i m hm; cases hm
  | cons a rest ih =>
      intro i m hm
      rcases List.mem_cons.1 hm with h | h
      · subst h; exact le_refl _
      · exact le_trans (Nat.le_succ i) (ih (i + 1) m h)

lemma jsMapSet_append {κ ν : Type} [DecidableEq κ] {m : List (κ × ν)} {k : κ} {v : ν}
    (h : ∀ p ∈ m, p.1 ≠ k) : jsMapSet m k v = m ++ [(k, v)] := by
  unfold jsMapSet
  rw [if_neg]
  simp only [List.any_eq_true, decide_eq_true_eq, not_exists, not_and]
  intro p hp
  exact h p hp

lemma consolidateShortStep_eq_self {s : MemorySystem}
    (h : s.shortTermMemory.length ≤ s.maxShortTermSize) :
    consolidateShortStep s = s := by
  simp only [consolidateShortStep]
  rw [if_neg (by omega)]

lemma consolidateLongStep_eq_self {s : MemorySystem}
    (h : s.longTermMemory.length ≤ s.maxLongTermSize) :
    consolidateLongStep s = s := by
  simp only [consolidateLongStep]
  rw [if_neg (by omega)]

/-- A `store` on a system with spare short-term capacity just inserts and
prepends: consolidation is the identity. -/
lemma store_below_cap (s : MemorySystem) (a : StoreArgs)
    (hshort : s.shortTermMemory.length < s.maxShortTermSize)
    (hlong : s.longTermMemory.length ≤ s.maxLongTermSize) :
    (s.store a.content a.ty a.importance a.weight a.tags a.now).2 =
      { s with
        memories := jsMapSet s.memories s.nextId (memOfArg a s.nextId)
        shortTermMemory := memOfArg a s.nextId :: s.shortTermMemory
        nextId := s.nextId + 1 } := by
  simp only [MemorySystem.store, consolidateMemories]
  rw [consolidateShortStep_eq_self (by simpa using hshort),
    consolidateLongStep_eq_self (by simpa using hlong)]
  rfl

/-- Characterization of a run of stores that stays within the short-term
capacity, on a system whose existing keys are below the uuid counter:
the new records are appended to the index in store order, the short-term
list receives them newest-first, and nothing is consolidated. -/
lemma storeMany_below_cap :
    ∀ (args : List StoreArgs) (s : MemorySystem),
      s.shortTermMemory.length + args.length ≤ s.maxShortTermSize →
      s.longTermMemory.length ≤ s.maxLongTermSize →
      (∀ p ∈ s.memories, p.1 < s.nextId) →
      storeMany s args =
        { s with
          memories := s.memories ++ (memsOf args s.nextId).map (fun m => (m.id, m))
          shortTermMemory := (memsOf args s.nextId).reverse ++ s.shortTermMemory
          nextId := s.nextId + args.length } := by
  intro args
  induction args with
  | nil =>
      intro s _ _ _
      simp [storeMany, memsOf]
  | cons a rest ih =>
      intro s h1 h2 h3
      have hlt : s.shortTermMemory.length < s.maxShortTermSize := by
        simp only [List.length_cons] at h1; omega
      have hstep := store_below_cap s a hlt h2
      have hfresh : ∀ p ∈ s.memories, p.1 ≠ s.nextId :=
        fun p hp => Nat.ne_of_lt (h3 p hp)
      have h3' : ∀ p ∈ jsMapSet s.memories s.nextId (memOfArg a s.nextId),
          p.1 < s.nextId + 1 := by
        intro p hp
        rw [jsMapSet_append hfresh] at hp
        rcases List.mem_append.1 hp with h | h
        · exact Nat.lt_succ_of_lt (h3 p h)
        · simp only [List.mem_singleton] at h
          subst h
          exact Nat.lt_succ_self _
      rw [storeMany, hstep,
        ih { s with
              memories := jsMapSet s.memories s.nextId (memOfArg a s.nextId)
              shortTermMemory := memOfArg a s.nextId :: s.shortTermMemory
              nextId := s.nextId + 1 }
          (by simp only [List.length_cons]; simp only [List.length_cons] at h1; omega)
          h2 h3']
      rw [jsMapSet_append hfresh]
      simp only [memsOf, List.map_cons, List.reverse_cons, List.append_assoc,
        List.singleton_append, List.length_cons, MemorySystem.mk.injEq, memOfArg]
      and_intros <;> first | trivial | omega

lemma memsOf_id_lt (args : List StoreArgs) : ∀ i, ∀ m ∈ memsOf args i, m.id < i + args.length := by
  induction args with
  | nil => intro i m hm; cases hm
  | cons a rest ih =>
      intro i m hm
      rcases List.mem_cons.1 hm with h | h
      · subst h; simp [memOfArg]
      · have := ih (i + 1) m h
        simp only [List.length_cons]
        omega

lemma storeMany_append (xs ys : List StoreArgs) :
    ∀ s, storeMany s (xs ++ ys) = storeMany (storeMany s xs) ys := by
  induction xs with
  | nil => intro s; rfl
  | cons a rest ih => intro s; simp [storeMany, ih]

/-- **C3 (amended).**  Storing `capacity + 1` records into a fresh memory
system (short-term capacity `mid.length + 1 ≥ 1`, long-term capacity
`≥ 1`) leaves exactly `capacity` short-term records, and exactly one
record — the *first* stored one, which store's unshift has pushed to the
tail — is demoted: it is promoted to the long-term list when its own
importance is ≥ 60 (index unchanged, `capacity + 1` records) and
permanently deleted from the primary index otherwise (index shrinks to
`capacity` records).  The original claim's §8 reading — that the fate of
the demotion is decided by the *51st* stored record's importance 40 — is
wrong: the 51st record sits at the head of the short-term list, and the
demoted record is the first stored one (see the counterexample). -/
theorem c3_consolidation_amended (lcap : Nat) (hlcap : 1 ≤ lcap)
    (a0 lastA : StoreArgs) (mid : List StoreArgs) :
    (storeMany (mkMemorySystem (mid.length + 1) lcap)
        ((a0 :: mid) ++ [lastA])).shortTermMemory.length = mid.length + 1
    ∧ (60 ≤ a0.importance →
        (storeMany (mkMemorySystem (mid.length + 1) lcap)
            ((a0 :: mid) ++ [lastA])).longTermMemory = [memOfArg a0 0]
        ∧ (storeMany (mkMemorySystem (mid.length + 1) lcap)
            ((a0 :: mid) ++ [lastA])).memories.length = mid.length + 2)
    ∧ (a0.importance < 60 →
        (storeMany (mkMemorySystem (mid.length + 1) lcap)
            ((a0 :: mid) ++ [lastA])).longTermMemory = []
        ∧ (storeMany (mkMemorySystem (mid.length + 1) lcap)
            ((a0 :: mid) ++ [lastA])).memories.length = mid.length + 1) := by
  have hlen1 : (memsOf mid 1).length = mid.length := memsOf_length mid 1
  have hfreshKeys : ∀ p ∈ (memsOf (a0 :: mid) 0).map (fun m => (m.id, m)),
      p.1 ≠ mid.length + 1 := by
    intro p hp
    rcases List.mem_map.1 hp with ⟨m, hm, rfl⟩
    have := memsOf_id_lt (a0 :: mid) 0 m hm
    simp only [List.length_cons, Nat.zero_add] at this
    exact Nat.ne_of_lt this
  have hmid : storeMany (mkMemorySystem (mid.length + 1) lcap) (a0 :: mid) =
      ⟨(memsOf (a0 :: mid) 0).map (fun m => (m.id, m)),
       (memsOf (a0 :: mid) 0).reverse, [], mid.length + 1, lcap, mid.length + 1⟩ := by
    rw [storeMany_below_cap (a0 :: mid) (mkMemorySystem (mid.length + 1) lcap)
      (by simp [mkMemorySystem]) (by simp [mkMemorySystem])
      (by intro p hp; cases hp)]
    simp [mkMemorySystem]
  have hsplit : storeMany (mkMemorySystem (mid.length + 1) lcap) ((a0 :: mid) ++ [lastA]) =
      consolidateMemories
        ⟨(memsOf (a0 :: mid) 0).map (fun m => (m.id, m)) ++
            [(mid.length + 1, memOfArg lastA (mid.length + 1))],
         memOfArg lastA (mid.length + 1) :: (memsOf (a0 :: mid) 0).reverse,
         [], mid.length + 1, lcap, mid.length + 2⟩ := by
    rw [storeMany_append, hmid]
    simp only [storeMany, MemorySystem.store]
    rw [jsMapSet_append hfreshKeys]
    rfl
  have hshape : memOfArg lastA (mid.length + 1) :: (memsOf (a0 :: mid) 0).reverse =
      (memOfArg lastA (mid.length + 1) :: (memsOf mid 1).reverse) ++ [memOfArg a0 0] := by
    simp [memsOf]
  have hprefix : (memOfArg lastA (mid.length + 1) :: (memsOf mid 1).reverse).length =
      mid.length + 1 := by
    simp [hlen1]
  have hshortstep : consolidateShortStep
      ⟨(memsOf (a0 :: mid) 0).map (fun m => (m.id, m)) ++
          [(mid.length + 1, memOfArg lastA (mid.length + 1))],
       memOfArg lastA (mid.length + 1) :: (memsOf (a0 :: mid) 0).reverse,
       [], mid.length + 1, lcap, mid.length + 2⟩ =
      (if 60 ≤ a0.importance then
        ⟨(memsOf (a0 :: mid) 0).map (fun m => (m.id, m)) ++
            [(mid.length + 1, memOfArg lastA (mid.length + 1))],
         memOfArg lastA (mid.length + 1) :: (memsOf mid 1).reverse,
         [memOfArg a0 0], mid.length + 1, lcap, mid.length + 2⟩
      else
        ⟨jsMapDelete
            ((memsOf (a0 :: mid) 0).map (fun m => (m.id, m)) ++
              [(mid.length + 1, memOfArg lastA (mid.length + 1))]) 0,
         memOfArg lastA (mid.length + 1) :: (memsOf mid 1).reverse,
         [], mid.length + 1, lcap, mid.length + 2⟩) := by
    simp only [consolidateShortStep]
    rw [if_pos (by simp only [List.length_cons, List.length_reverse,
      memsOf_length, List.length_cons]; omega)]
    rw [hshape, List.drop_left' hprefix, List.take_left' hprefix]
    simp only [List.foldl_cons, List.foldl_nil, memOfArg]
  have hdelete : jsMapDelete
      ((memsOf (a0 :: mid) 0).map (fun m => (m.id, m)) ++
        [(mid.length + 1, memOfArg lastA (mid.length + 1))]) 0 =
      (memsOf mid 1).map (fun m => (m.id, m)) ++
        [(mid.length + 1, memOfArg lastA (mid.length + 1))] := by
    simp [jsMapDelete, List.filter_append, memsOf, List.map_cons, memOfArg,
      List.filter_cons, Nat.zero_add]
    intro m hm
    have := memsOf_id_ge mid 1 m hm
    omega
  by_cases h60 : (60 : ℚ) ≤ a0.importance
  · have hfinal : storeMany (mkMemorySystem (mid.length + 1) lcap)
        ((a0 :: mid) ++ [lastA]) =
        ⟨(memsOf (a0 :: mid) 0).map (fun m => (m.id, m)) ++
            [(mid.length + 1, memOfArg lastA (mid.length + 1))],
         memOfArg lastA (mid.length + 1) :: (memsOf mid 1).reverse,
         [memOfArg a0 0], mid.length + 1, lcap, mid.length + 2⟩ := by
      rw [hsplit]
      unfold consolidateMemories
      rw [hshortstep, if_pos h60, consolidateLongStep_eq_self (by simpa using hlcap)]
    rw [List.cons_append] at hfinal
    refine ⟨?_, fun _ => ⟨?_, ?_⟩, fun hlt => absurd h60 (not_le.2 hlt)⟩
    · simp [hfinal, hlen1]
    · simp [hfinal]
    · simp [hfinal, memsOf_length]
  · have hfinal : storeMany (mkMemorySystem (mid.length + 1) lcap)
        ((a0 :: mid) ++ [lastA]) =
        ⟨(memsOf mid 1).map (fun m => (m.id, m)) ++
            [(mid.length + 1, memOfArg lastA (mid.length + 1))],
         memOfArg lastA (mid.length + 1) :: (memsOf mid 1).reverse,
         [], mid.length + 1, lcap, mid.length + 2⟩ := by
      rw [hsplit]
      unfold consolidateMemories
      rw [hshortstep, if_neg h60, hdelete,
        consolidateLongStep_eq_self (by simp)]
    rw [List.cons_append] at hfinal
    refine ⟨?_, fun hge => absurd hge h60, fun _ => ⟨?_, ?_⟩⟩
    · simp [hfinal, hlen1]
    · simp [hfinal]
    · simp [hfinal, hlen1]

/-- 51 store-calls for the concrete §8 scenario: the *first* stored record
has importance 100, the *51st* has importance 40. -/
def c3CounterArgs : List StoreArgs :=
  ⟨[], .episodic, 100, 0, [], 0⟩ ::
    (List.replicate 49 ⟨[], .episodic, 50, 0, [], 0⟩ ++ [⟨[], .episodic, 40, 0, [], 0⟩])

set_option maxRecDepth 100000 in
/-- **C3 counterexample.**  Storing 51 records into a fresh default system
(capacity 50) where the 51st has importance 40 does *not* imply the
demoted record is deleted: with the first stored record at importance 100,
the demoted record (the first one) is *promoted* — the long-term list
receives it and the index still holds all 51 records. -/
theorem c3_51st_record_counterexample :
    c3CounterArgs.length = 51
    ∧ c3CounterArgs.getLast?.map (fun a => a.importance) = some 40
    ∧ (storeMany (mkMemorySystem 50 1000) c3CounterArgs).shortTermMemory.length = 50
    ∧ (storeMany (mkMemorySystem 50 1000) c3CounterArgs).longTermMemory =
        [⟨0, [], .episodic, 100, 0, 0, [], []⟩]
    ∧ (storeMany (mkMemorySystem 50 1000) c3CounterArgs).memories.length = 51 := by
  refine ⟨by decide, by decide, by decide, by decide, by decide⟩

/-- Store arguments for the C3 witness: first record importance 40. -/
def c3WitnessA0 : StoreArgs := ⟨[], .episodic, 40, 0, [], 0⟩

/-- Middle store argument for the C3 witness. -/
def c3WitnessMid : List StoreArgs := [⟨[], .episodic, 70, 0, [], 0⟩]

/-- Last store argument for the C3 witness. -/
def c3WitnessLast : StoreArgs := ⟨[], .episodic, 90, 0, [], 0⟩

/-- Witness for C3 (amended) at capacity 2: three stores whose first
record has importance 40 < 60 leave 2 short-term records, an empty
long-term list, and 2 indexed records — the first stored record was
deleted. -/
theorem c3_consolidation_witness :
    (1 ≤ 1000)
    ∧ c3WitnessA0.importance < 60
    ∧ (storeMany (mkMemorySystem (c3WitnessMid.length + 1) 1000)
        ((c3WitnessA0 :: c3WitnessMid) ++ [c3WitnessLast])).shortTermMemory.length =
        c3WitnessMid.length + 1
    ∧ (storeMany (mkMemorySystem (c3WitnessMid.length + 1) 1000)
        ((c3WitnessA0 :: c3WitnessMid) ++ [c3WitnessLast])).longTermMemory = []
    ∧ (storeMany (mkMemorySystem (c3WitnessMid.length + 1) 1000)
        ((c3WitnessA0 :: c3WitnessMid) ++ [c3WitnessLast])).memories.length =
        c3WitnessMid.length + 1 :=
  ⟨by norm_num, by decide,
   (c3_consolidation_amended 1000 (by norm_num) c3WitnessA0 c3WitnessLast c3WitnessMid).1,
   ((c3_consolidation_amended 1000 (by norm_num) c3WitnessA0 c3WitnessLast
      c3WitnessMid).2.2 (by decide)).1,
   ((c3_consolidation_amended 1000 (by norm_num) c3WitnessA0 c3WitnessLast
      c3WitnessMid).2.2 (by decide)).2⟩

/-! ## C4: recall's scoring, ordering and truncation -/

/-- The spec's relevance formula, written from the spec's words (refinement
side): 100 if the query text occurs in the content, +50 per tag containing
the query text, +0.5 × importance, + max(0, 20 − daysSinceCreation). -/
def specRelevance (m : Memory) (query : Str) (now : Nat) : ℚ :=
  (if strIncludes (lowerStr m.content) (lowerStr query) then (100 : ℚ) else 0)
  + 50 * ((m.tags.filter (fun t => strIncludes (lowerStr t) (lowerStr query))).length : ℚ)
  + (1 / 2) * m.importance
  + max 0 (20 - ((now : ℚ) - (m.timestamp : ℚ)) / msPerDay)

/-- A record whose content contains the query strictly out-scores one with
the query in neither content nor tags, at equal importance and timestamp. -/
lemma relevance_gap {A B : Memory} {q : Str} {now : Nat}
    (hAc : strIncludes (lowerStr A.content) (lowerStr q) = true)
    (hBc : strIncludes (lowerStr B.content) (lowerStr q) = false)
    (hBt : ∀ t ∈ B.tags, strIncludes (lowerStr t) (lowerStr q) = false)
    (himp : A.importance = B.importance) (hts : A.timestamp = B.timestamp) :
    calculateRelevance B q now < calculateRelevance A q now := by
  have htagB : (B.tags.filter (fun t => strIncludes (lowerStr t) (lowerStr q))).length = 0 := by
    rw [List.length_eq_zero, List.filter_eq_nil_iff]
    intro t ht
    simp [hBt t ht]
  have htagA : (0 : ℚ) ≤
      50 * ((A.tags.filter (fun t => strIncludes (lowerStr t) (lowerStr q))).length : ℚ) :=
    mul_nonneg (by norm_num) (Nat.cast_nonneg _)
  simp only [calculateRelevance]
  rw [if_pos hAc, if_neg (by simp [hBc]), htagB, himp, hts]
  push_cast
  linarith

/-- **C4** (confirmed).  `recall(query, limit, minImportance)`:
(1) the score a candidate gets equals the spec's relevance formula
(`specRelevance`); every returned record (2) passes the importance filter
and (3) has strictly positive score; (4) at most `limit` records are
returned; (5) the output is sorted by relevance, descending; and (6) the
claimed consequence: if record `A` (case-folded) contains the query in its
content while record `B` contains it in neither content nor tags, with
equal importance and timestamp, then whenever both are returned `A` ranks
strictly above `B`. -/
theorem c4_recall_scoring_and_ordering :
    ∀ (s : MemorySystem) (q : Str) (lim : Nat) (minI : ℚ) (now : Nat),
      (∀ m : Memory, calculateRelevance m q now = specRelevance m q now)
      ∧ (∀ m ∈ s.recall q lim minI now, minI ≤ m.importance)
      ∧ (∀ m ∈ s.recall q lim minI now, 0 < calculateRelevance m q now)
      ∧ (s.recall q lim minI now).length ≤ lim
      ∧ (s.recall q lim minI now).Pairwise
          (fun a b => calculateRelevance b q now ≤ calculateRelevance a q now)
      ∧ (∀ (i j : Nat) (A B : Memory),
          (s.recall q lim minI now).get? i = some A →
          (s.recall q lim minI now).get? j = some B →
          strIncludes (lowerStr A.content) (lowerStr q) = true →
          strIncludes (lowerStr B.content) (lowerStr q) = false →
          (∀ t ∈ B.tags, strIncludes (lowerStr t) (lowerStr q) = false) →
          A.importance = B.importance → A.timestamp = B.timestamp →
          i < j) := by
  intro s q lim minI now
  have hformula : ∀ m : Memory, calculateRelevance m q now = specRelevance m q now := by
    intro m
    simp only [calculateRelevance, specRelevance, jsMax_eq_max]
    ring
  set pos := ((((mapValues s.memories).filter
      (fun m => decide (minI ≤ m.importance))).map
        (fun m => (m, calculateRelevance m q now))).filter
          (fun p => decide ((0 : ℚ) < p.2))) with hposdef
  set sorted := pos.insertionSort scoreGE with hsorteddef
  have hout : s.recall q lim minI now = (sorted.take lim).map Prod.fst := rfl
  have hsnd : ∀ p ∈ sorted, p.2 = calculateRelevance p.1 q now
      ∧ minI ≤ p.1.importance ∧ 0 < p.2 := by
    intro p hp
    have hp2 : p ∈ pos := ((List.perm_insertionSort scoreGE pos).mem_iff).1 hp
    obtain ⟨hp3, hdec⟩ := List.mem_filter.1 hp2
    rcases List.mem_map.1 hp3 with ⟨m, hm, rfl⟩
    obtain ⟨_, hdec2⟩ := List.mem_filter.1 hm
    exact ⟨rfl, of_decide_eq_true hdec2, of_decide_eq_true hdec⟩
  have hmemtake : ∀ m ∈ s.recall q lim minI now, ∃ p ∈ sorted, p.1 = m := by
    intro m hm
    rw [hout] at hm
    rcases List.mem_map.1 hm with ⟨p, hp, rfl⟩
    exact ⟨p, List.take_subset lim sorted hp, rfl⟩
  have hpair : (s.recall q lim minI now).Pairwise
      (fun a b => calculateRelevance b q now ≤ calculateRelevance a q now) := by
    rw [hout, List.pairwise_map]
    have hsorted2 : sorted.Pairwise scoreGE := List.sorted_insertionSort scoreGE pos
    have htake : (sorted.take lim).Pairwise scoreGE :=
      hsorted2.sublist (sorted.take_sublist lim)
    refine htake.imp_of_mem ?_
    intro a b ha hb hr
    have hsa := hsnd a (List.take_subset lim sorted ha)
    have hsb := hsnd b (List.take_subset lim sorted hb)
    have hba : b.2 ≤ a.2 := hr
    rw [hsa.1, hsb.1] at hba
    exact hba
  refine ⟨hformula, ?_, ?_, ?_, hpair, ?_⟩
  · intro m hm
    rcases hmemtake m hm with ⟨p, hp, rfl⟩
    exact (hsnd p hp).2.1
  · intro m hm
    rcases hmemtake m hm with ⟨p, hp, rfl⟩
    have h := hsnd p hp
    rw [← h.1]
    exact h.2.2
  · rw [hout, List.length_map]
    exact sorted.length_take_le lim
  · intro i j A B hA hB hAc hBc hBt himp hts
    rcases Nat.lt_trichotomy i j with h | h | h
    · exact h
    · exfalso
      subst h
      rw [hA] at hB
      have hAB : A = B := Option.some.inj hB
      rw [hAB, hBc] at hAc
      exact Bool.false_ne_true hAc
    · exfalso
      obtain ⟨hi, hgi⟩ := List.get?_eq_some.1 hA
      obtain ⟨hj, hgj⟩ := List.get?_eq_some.1 hB
      have hple := List.pairwise_iff_get.1 hpair ⟨j, hj⟩ ⟨i, hi⟩ h
      rw [hgi, hgj] at hple
      exact absurd hple (not_le.2 (relevance_gap hAc hBc hBt himp hts))

/-- A concrete two-record system for the C4 witness: record A's content
contains "cat", record B's content and tag do not. -/
def c4System : MemorySystem :=
  (((mkMemorySystem 50 1000).store (S "the cat sat") .episodic 50 0 [] 0).2.store
    (S "dogs") .episodic 50 0 [S "pets"] 0).2

/-- The first stored record of `c4System`. -/
def c4A : Memory := ⟨0, S "the cat sat", .episodic, 50, 0, 0, [], []⟩

/-- The second stored record of `c4System`. -/
def c4B : Memory := ⟨1, S "dogs", .episodic, 50, 0, 0, [S "pets"], []⟩

section
attribute [local semireducible] Rat.add Rat.mul Rat.inv Rat.sub

/-- Witness for C4 at a concrete recall: both records are returned, `A`
at index 0 and `B` at index 1, and the theorem's ordering consequence
places `A` strictly above `B`. -/
theorem c4_recall_witness :
    ((c4System.recall (S "cat") 10 0 0).get? 0 = some c4A
      ∧ (c4System.recall (S "cat") 10 0 0).get? 1 = some c4B
      ∧ strIncludes (lowerStr c4A.content) (lowerStr (S "cat")) = true
      ∧ strIncludes (lowerStr c4B.content) (lowerStr (S "cat")) = false
      ∧ (∀ t ∈ c4B.tags, strIncludes (lowerStr t) (lowerStr (S "cat")) = false)
      ∧ c4A.importance = c4B.importance ∧ c4A.timestamp = c4B.timestamp)
    ∧ (0 : Nat) < 1 :=
  ⟨⟨by decide, by decide, by decide, by decide, by decide, by decide, by decide⟩,
   (c4_recall_scoring_and_ordering c4System (S "cat") 10 0 0).2.2.2.2.2 0 1 c4A c4B
     (by decide) (by decide) (by decide) (by decide) (by decide) (by decide) (by decide)⟩

end

/-! ## C8: the snapshot round trip -/

/-- Well-formedness of the primary index: distinct keys, each key equal to
its record's id (true of every system the class itself builds). -/
def memWF (s : MemorySystem) : Prop :=
  (s.memories.map Prod.fst).Nodup ∧ ∀ p ∈ s.memories, p.1 = p.2.id

instance (s : MemorySystem) : Decidable (memWF s) := by
  unfold memWF; infer_instance

/-- Well-formedness of the context map: distinct keys, each key equal to
its context's participant id. -/
def ctxWF (m : CtxMap) : Prop :=
  (m.map Prod.fst).Nodup ∧ ∀ p ∈ m, p.1 = p.2.participantId

instance (m : CtxMap) : Decidable (ctxWF m) := by
  unfold ctxWF; infer_instance

lemma nodup_keys_unique {κ ν : Type} {m : List (κ × ν)}
    (h : (m.map Prod.fst).Nodup) {p q : κ × ν}
    (hp : p ∈ m) (hq : q ∈ m) (hk : p.1 = q.1) : p = q := by
  induction m with
  | nil => cases hp
  | cons a t ih =>
      rw [List.map_cons, List.nodup_cons] at h
      rcases List.mem_cons.1 hp with hp1 | hp1 <;>
        rcases List.mem_cons.1 hq with hq1 | hq1
      · rw [hp1, hq1]
      · exact absurd (List.mem_map.2 ⟨q, hq1, by rw [← hk, hp1]⟩) h.1
      · exact absurd (List.mem_map.2 ⟨p, hp1, by rw [hk, hq1]⟩) h.1
      · exact ih h.2 hp1 hq1

lemma map_eq_self_of_mem {α : Type} {f : α → α} :
    ∀ {l : List α}, (∀ a ∈ l, f a = a) → l.map f = l := by
  intro l
  induction l with
  | nil => intro _; rfl
  | cons a t ih =>
      intro h
      rw [List.map_cons, h a (List.mem_cons_self a t),
        ih (fun b hb => h b (List.mem_cons_of_mem a hb))]

lemma jsMapSet_self {κ ν : Type} [DecidableEq κ] {m : List (κ × ν)} {k : κ} {v : ν}
    (hnd : (m.map Prod.fst).Nodup) (hmem : (k, v) ∈ m) : jsMapSet m k v = m := by
  unfold jsMapSet
  rw [if_pos (List.any_eq_true.2 ⟨(k, v), hmem, by simp⟩)]
  refine map_eq_self_of_mem ?_
  intro q hq
  by_cases hqk : q.1 = k
  · rw [if_pos hqk]
    exact nodup_keys_unique hnd hmem hq hqk.symm
  · rw [if_neg hqk]

lemma foldl_fixed {α β : Type} {f : α → β → α} {m : α} :
    ∀ {l : List β}, (∀ x ∈ l, f m x = m) → l.foldl f m = m := by
  intro l
  induction l with
  | nil => intro _; rfl
  | cons a t ih =>
      intro h
      rw [List.foldl_cons, h a (List.mem_cons_self a t),
        ih (fun b hb => h b (List.mem_cons_of_mem a hb))]

/-- The effect of import's insertion loop when every inserted record is
already indexed under its own id: the index is untouched, records with
importance ≥ 60 are appended to the long-term list and the rest to the
short-term list. -/
lemma importFold_char :
    ∀ (ms : List Memory) (st : MemorySystem),
      (∀ mem ∈ ms, jsMapSet st.memories mem.id mem = st.memories) →
      (ms.foldl
        (fun st m =>
          let st1 := { st with memories := jsMapSet st.memories m.id m }
          if 60 ≤ m.importance then
            { st1 with longTermMemory := st1.longTermMemory ++ [m] }
          else
            { st1 with shortTermMemory := st1.shortTermMemory ++ [m] })
        st) =
      { st with
        shortTermMemory := st.shortTermMemory ++
          ms.filter (fun m => !(decide ((60 : ℚ) ≤ m.importance)))
        longTermMemory := st.longTermMemory ++
          ms.filter (fun m => decide ((60 : ℚ) ≤ m.importance)) } := by
  intro ms
  induction ms with
  | nil => intro st _; simp
  | cons m rest ih =>
      intro st h
      have hm := h m (List.mem_cons_self m rest)
      by_cases h60 : (60 : ℚ) ≤ m.importance
      · rw [List.foldl_cons]
        simp only [hm, if_pos h60]
        rw [ih { st with longTermMemory := st.longTermMemory ++ [m] }
          (fun b hb => h b (List.mem_cons_of_mem m hb))]
        simp [List.filter_cons, h60, List.append_assoc]
      · rw [List.foldl_cons]
        simp only [hm, if_neg h60]
        rw [ih { st with shortTermMemory := st.shortTermMemory ++ [m] }
          (fun b hb => h b (List.mem_cons_of_mem m hb))]
        simp [List.filter_cons, h60, List.append_assoc]

/-- Re-importing a system's own export leaves the primary index unchanged
whenever the duplicated short-term and long-term lists stay within their
capacities. -/
lemma importMems_exportMems (s : MemorySystem)
    (hwf : memWF s)
    (hshort : s.shortTermMemory.length +
      ((s.exportMems).filter (fun m => !(decide ((60 : ℚ) ≤ m.importance)))).length ≤
        s.maxShortTermSize)
    (hlong : s.longTermMemory.length +
      ((s.exportMems).filter (fun m => decide ((60 : ℚ) ≤ m.importance))).length ≤
        s.maxLongTermSize) :
    (s.importMems s.exportMems).memories = s.memories := by
  have hins : ∀ mem ∈ s.exportMems, jsMapSet s.memories mem.id mem = s.memories := by
    intro mem hmem
    rcases List.mem_map.1 hmem with ⟨p, hp, rfl⟩
    have hk : p.1 = p.2.id := hwf.2 p hp
    have : (p.2.id, p.2) ∈ s.memories := by
      have : p = (p.2.id, p.2) := by
        rw [← hk]
      rw [← this]
      exact hp
    exact jsMapSet_self hwf.1 this
  unfold MemorySystem.importMems
  rw [importFold_char s.exportMems s hins]
  rw [consolidateMemories,
    consolidateShortStep_eq_self (by simpa using hshort),
    consolidateLongStep_eq_self (by simpa using hlong)]

/-- **C8 (amended).**  For a well-formed Soul state (index keys distinct
and matching record ids; context keys matching participant ids — true of
every state the class itself builds), re-importing the soul's own export
reproduces the identical primary index (hence identical memory count),
the identical Big-Five trait vector, and the identical context map,
*provided* the duplicated short-term and long-term lists stay within
their capacities.  Without that proviso the claim is false — import
appends a copy of every record to the short/long-term lists and the
re-run consolidation then deletes evicted low-importance records from the
index (see the counterexample). -/
theorem c8_roundtrip_amended (s : Soul)
    (hmem : memWF s.memorySystem) (hctx : ctxWF s.conversationContexts)
    (hshort : s.memorySystem.shortTermMemory.length +
      ((s.memorySystem.exportMems).filter
        (fun m => !(decide ((60 : ℚ) ≤ m.importance)))).length ≤
        s.memorySystem.maxShortTermSize)
    (hlong : s.memorySystem.longTermMemory.length +
      ((s.memorySystem.exportMems).filter
        (fun m => decide ((60 : ℚ) ≤ m.importance))).length ≤
        s.memorySystem.maxLongTermSize) :
    (s.importSoul s.exportSoul).memorySystem.memories = s.memorySystem.memories
    ∧ (s.importSoul s.exportSoul).memorySystem.memories.length =
        s.memorySystem.memories.length
    ∧ (s.importSoul s.exportSoul).personalitySystem.bigFive =
        s.personalitySystem.bigFive
    ∧ (s.importSoul s.exportSoul).conversationContexts = s.conversationContexts := by
  have hmemr := importMems_exportMems s.memorySystem hmem hshort hlong
  have hctxr : (s.exportSoul.conversationContexts).foldl
      (fun m c => jsMapSet m c.participantId c) s.conversationContexts =
      s.conversationContexts := by
    refine foldl_fixed ?_
    intro c hc
    rcases List.mem_map.1 hc with ⟨p, hp, rfl⟩
    have hk : p.1 = p.2.participantId := hctx.2 p hp
    have hpm : (p.2.participantId, p.2) ∈ s.conversationContexts := by
      have hpe : p = (p.2.participantId, p.2) := by
        rw [← hk]
      rw [← hpe]
      exact hp
    exact jsMapSet_self hctx.1 hpm
  exact ⟨hmemr, congrArg List.length hmemr, rfl, hctxr⟩

def c8Soul : Soul :=
  (List.range 13).foldl (fun s _ => (s.respond [] (S "user") (S "User") 0).1) (mkSoul none 0)

section
attribute [local semireducible] Rat.add Rat.mul Rat.inv Rat.sub

set_option maxRecDepth 1000000 in
theorem c8_roundtrip_counterexample :
    c8Soul.memorySystem.memories.length = 27
    ∧ (c8Soul.importSoul c8Soul.exportSoul).memorySystem.memories.length = 24 := by
  constructor
  · decide
  · decide

theorem c8_roundtrip_witness :
    (memWF (mkSoul none 0).memorySystem
      ∧ ctxWF (mkSoul none 0).conversationContexts
      ∧ (mkSoul none 0).memorySystem.shortTermMemory.length +
          (((mkSoul none 0).memorySystem.exportMems).filter
            (fun m => !(decide ((60 : ℚ) ≤ m.importance)))).length ≤
          (mkSoul none 0).memorySystem.maxShortTermSize
      ∧ (mkSoul none 0).memorySystem.longTermMemory.length +
          (((mkSoul none 0).memorySystem.exportMems).filter
            (fun m => decide ((60 : ℚ) ≤ m.importance))).length ≤
          (mkSoul none 0).memorySystem.maxLongTermSize)
    ∧ ((mkSoul none 0).importSoul (mkSoul none 0).exportSoul).memorySystem.memories =
        (mkSoul none 0).memorySystem.memories :=
  ⟨⟨by decide, by decide, by decide, by decide⟩,
   (c8_roundtrip_amended (mkSoul none 0) (by decide) (by decide) (by decide)
     (by decide)).1⟩
end
end Soulforge
